import Mathlib

/-!
Verification of the ISPAQ `Concierge` data-access expediter
(`ispaq/concierge.py`) against its natural-language specification.

The Python source is shallowly embedded: pandas dataframes become Lean
lists of records, the regex fragments actually generated by the code
(`\.`, `.*`, `.`, literals) become a small token machine, floats used
only in comparisons become rationals, and the filesystem / web-service
collaborators become explicit function parameters.
-/

namespace Ispaq

/-! ## Regex fragment machine

`get_availability` builds a Python regex from an SNCL pattern with
`_sncl_pattern.replace('.','\\.').replace('*','.*').replace('?','.')`
and then filters with `df.snclId.str.contains(py_pattern)`, i.e.
`re.search` semantics (a match anywhere in the string).  The regexes so
produced consist only of literal characters, `.` (any one character) and
`.*` (any sequence), which we model as a token list.  The recursion is
fueled so that the kernel can evaluate it on concrete inputs; every
recursive call strictly decreases `ts.length + s.length`, so fuel
`ts.length + s.length + 1` always suffices.
-/

inductive Tok where
  | lit (c : Char)
  | any
  | star
deriving DecidableEq, Repr

/-- Does the token list match some prefix of `s`?  (Python `re.search`
succeeds at a position as soon as the whole regex matches there; it does
not need to consume the rest of the string.) -/
def match_here_fuel : Nat → List Tok → List Char → Bool
  | 0, _, _ => false
  | _ + 1, [], _ => true
  | fuel + 1, .lit c :: ts, s =>
    match s with
    | [] => false
    | x :: xs => c == x && match_here_fuel fuel ts xs
  | fuel + 1, .any :: ts, s =>
    match s with
    | [] => false
    | _ :: xs => match_here_fuel fuel ts xs
  | fuel + 1, .star :: ts, s =>
    match_here_fuel fuel ts s ||
      (match s with
       | [] => false
       | _ :: xs => match_here_fuel fuel (.star :: ts) xs)

def match_here (ts : List Tok) (s : List Char) : Bool :=
  match_here_fuel (ts.length + s.length + 1) ts s

/-- Does the token list match all of `s` (anchored at both ends)? -/
def match_exact_fuel : Nat → List Tok → List Char → Bool
  | 0, _, _ => false
  | _ + 1, [], s => s.isEmpty
  | fuel + 1, .lit c :: ts, s =>
    match s with
    | [] => false
    | x :: xs => c == x && match_exact_fuel fuel ts xs
  | fuel + 1, .any :: ts, s =>
    match s with
    | [] => false
    | _ :: xs => match_exact_fuel fuel ts xs
  | fuel + 1, .star :: ts, s =>
    match_exact_fuel fuel ts s ||
      (match s with
       | [] => false
       | _ :: xs => match_exact_fuel fuel (.star :: ts) xs)

def match_exact (ts : List Tok) (s : List Char) : Bool :=
  match_exact_fuel (ts.length + s.length + 1) ts s

/-- `re.search` semantics: the token list matches starting at some
position of `s`. -/
def re_search (ts : List Tok) (s : List Char) : Bool :=
  (List.range (s.length + 1)).any fun i => match_here ts (s.drop i)

/-- Splitting a character list on a separator, with Python
`str.split(sep)` semantics (empty components are kept). -/
def split_char (sep : Char) : List Char → List (List Char)
  | [] => [[]]
  | c :: cs =>
    match split_char sep cs with
    | [] => [[]]
    | g :: gs => if c = sep then [] :: g :: gs else (c :: g) :: gs

/-- Python `str.split('.')`. -/
def split_dot (l : List Char) : List (List Char) :=
  split_char '.' l

def tokens_of_chars (l : List Char) : List Tok :=
  l.map fun c => if c = '*' then .star else if c = '?' then .any else .lit c

/-- Token compilation of an SNCL pattern, following concierge.py line 494:
`.replace('.','\\.')` turns each dot into the literal-dot regex `\.`,
`.replace('*','.*')` turns each `*` into `.*`, and `.replace('?','.')`
turns each `?` into `.`; all other characters (alphanumerics, `-`) are
regex literals. -/
def sncl_py_tokens (p : String) : List Tok :=
  tokens_of_chars p.toList

/-- concierge.py line 497, `df = df[df.snclId.str.contains(py_pattern)]`:
the row for candidate identifier `sncl` is retained iff the compiled
pattern is found *somewhere* in `sncl` (unanchored `re.search`). -/
def sncl_subset_keep (pat sncl : String) : Bool :=
  re_search (sncl_py_tokens pat) sncl.toList

/-- Modelled from the spec (section 4.2 Pattern Matcher): the match is
case-sensitive and *anchored* to the full dot-joined identifier; the
identifier must have exactly 4 dot-separated components, each matching
the corresponding pattern component under `*` / `?` wildcard
semantics. -/
def spec_sncl_match (pat sncl : String) : Bool :=
  let ps := split_dot pat.toList
  let cs := split_dot sncl.toList
  ps.length == 4 && cs.length == 4 &&
    (List.zip ps cs).all fun pc => match_exact (tokens_of_chars pc.1) pc.2

/-- C1: the availability subsetting keeps a row iff the compiled pattern
matches the identifier anchored over all 4 components.  FALSE in the
code: `str.contains` performs an unanchored substring search, so pattern
`IU.ANMO.00.BHZ` retains the identifier `CIU.ANMO.00.BHZ` (network
`CIU`), which the anchored 4-component semantics required by the spec
rejects. -/
theorem c1_subset_is_substring_not_anchored :
    sncl_subset_keep "IU.ANMO.00.BHZ" "CIU.ANMO.00.BHZ" = true
    ∧ spec_sncl_match "IU.ANMO.00.BHZ" "CIU.ANMO.00.BHZ" = false := by
  exact ⟨by decide, by decide⟩

/-! ## Availability rows, merging and de-duplication

concierge.py lines 558-581: the per-pattern dataframes are concatenated,
`starttime` is rendered as a string into a temporary `start` column, and
`drop_duplicates(['snclId', 'start'])` removes rows sharing that key
(pandas keeps the first occurrence).  An `AvRow` keeps the two key
columns (`snclId`, the canonical-string epoch start) plus a `payload`
standing for all remaining columns. -/

structure AvRow where
  snclId : String
  startStr : String
  payload : Nat
deriving DecidableEq, Repr

def avKey (r : AvRow) : String × String := (r.snclId, r.startStr)

/-- `drop_duplicates(['snclId','start'])`, pandas default `keep='first'`:
a row is kept iff its key has not been seen earlier. -/
def drop_dups_seen (seen : List (String × String)) : List AvRow → List AvRow
  | [] => []
  | r :: rs =>
    if avKey r ∈ seen then drop_dups_seen seen rs
    else r :: drop_dups_seen (avKey r :: seen) rs

def drop_duplicates_sncl_start (rows : List AvRow) : List AvRow :=
  drop_dups_seen [] rows

/-- concierge.py lines 564-570: `pd.concat` of the per-pattern
dataframes followed by `drop_duplicates(['snclId','start'])`. -/
def mergeAndDedup (dfs : List (List AvRow)) : List AvRow :=
  drop_duplicates_sncl_start dfs.flatten

/-- Outcome of the tail of `get_availability` (lines 558-581): either a
raised `NoAvailableDataError` or a normal return (Python returns `None`
implicitly when control falls off the end of the function). -/
inductive GAResult where
  | raisedNoData (msg : String)
  | returned (result : Option (List AvRow))
deriving DecidableEq, Repr

/-- concierge.py lines 558-581 as written: both
`raise NoAvailableDataError(err_msg)` statements (lines 561 and 575) are
commented out, so the empty cases merely log and fall through, and the
function implicitly returns `None`. -/
def get_availability_tail (dfs : List (List AvRow)) : GAResult :=
  if dfs.length = 0 then
    .returned none
  else
    let availability := mergeAndDedup dfs
    if availability.length = 0 then .returned none
    else .returned (some availability)

/-- Key-count invariant of the seeded de-duplication pass. -/
theorem count_drop_dups_seen (k : String × String) :
    ∀ (seen : List (String × String)) (l : List AvRow),
      ((drop_dups_seen seen l).map avKey).count k
        = if k ∈ seen then 0 else if k ∈ l.map avKey then 1 else 0 := by
  intro seen l
  induction l generalizing seen with
  | nil => simp [drop_dups_seen]
  | cons r rs ih =>
    by_cases hr : avKey r ∈ seen
    · rw [drop_dups_seen, if_pos hr, ih seen]
      by_cases hk : k ∈ seen
      · simp [hk]
      · have hne : k ≠ avKey r := fun h => hk (h ▸ hr)
        simp [hk, List.mem_cons, hne]
    · rw [drop_dups_seen, if_neg hr]
      by_cases hk : k = avKey r
      · subst hk
        rw [List.map_cons, List.count_cons_self, ih (avKey r :: seen)]
        simp [hr]
      · rw [List.map_cons, List.count_cons_of_ne hk, ih (avKey r :: seen)]
        by_cases hks : k ∈ seen
        · simp [hks, hk]
        · simp [hks, hk, List.mem_cons]

/-- C5: after merging and de-duplication, every (snclId, epoch-start
string) key present in the input rows appears on exactly one row, and no
key is lost. -/
theorem c5_dedup_exactly_one (dfs : List (List AvRow)) (k : String × String) :
    ((mergeAndDedup dfs).map avKey).count k
      = if k ∈ dfs.flatten.map avKey then 1 else 0 := by
  have h := count_drop_dups_seen k [] dfs.flatten
  simpa [mergeAndDedup, drop_duplicates_sncl_start] using h

/-- C2 counterexample: with zero per-pattern results, `get_availability`
does NOT raise `NoAvailableDataError` (the raise on line 561 is
commented out); it logs and implicitly returns `None`. -/
theorem c2_counterexample_no_raise :
    get_availability_tail [] = GAResult.returned none := by
  rfl

/-- C2 amended: `get_availability` never raises on empty results; when
the merged, de-duplicated result is empty (in particular when every
pattern yielded nothing) it returns `None`, and otherwise it returns the
merged catalog. -/
theorem c2_amended_returns_none (dfs : List (List AvRow)) :
    get_availability_tail dfs
      = GAResult.returned
          (if mergeAndDedup dfs = [] then none else some (mergeAndDedup dfs)) := by
  by_cases h0 : dfs.length = 0
  · have : dfs = [] := List.length_eq_zero.mp h0
    subst this
    simp [get_availability_tail, mergeAndDedup, drop_duplicates_sncl_start,
      drop_dups_seen]
  · rw [get_availability_tail, if_neg h0]
    by_cases hm : mergeAndDedup dfs = []
    · simp [hm]
    · have : (mergeAndDedup dfs).length ≠ 0 := by
        simpa [List.length_eq_zero] using hm
      simp [this, hm]

/-! ## Source endpoint classification (Concierge.__init__)

concierge.py lines 98-154 classify each of `dataselect_url`,
`event_url`, `station_url`.  The scheme test on lines 103, 123 and 143
is the Python expression `("http://" or "https://") in value`: the inner
`or` evaluates to its first truthy operand, the non-empty string
`"http://"`, so the test actually asks whether `"http://"` occurs as a
*substring* of the value — `"https://"` is never tested. -/

inductive Endpoint where
  | remote (base : String)
  | localPath (p : String)
  | unconfigured
deriving DecidableEq, Repr

/-- Python `a or b` on strings: the first operand if truthy (non-empty),
otherwise the second. -/
def py_or_str (a b : String) : String :=
  if a = "" then b else a

/-- Python `needle in haystack` on strings (substring containment),
via the literal-token regex machine. -/
def str_contains_lit (needle hay : String) : Bool :=
  re_search (needle.toList.map Tok.lit) hay.toList

/-- The scheme test as the code writes it:
`("http://" or "https://") in value`. -/
def http_scheme_check (value : String) : Bool :=
  str_contains_lit (py_or_str "http://" "https://") value

/-- concierge.py lines 98-154 (one data class, `label` names it in the
error message; quotes around the offending value are elided from the
embedded message):
`None` → unconfigured; a key of `URL_MAPPINGS` → remote with the mapped
base URL; value passing the scheme test → remote with the value itself;
an existing path (after `os.path.abspath`, modelled by `absPath`) →
local path; otherwise log and `raise ValueError`. -/
def classify_url (urlMappings : List (String × String))
    (pathExists : String → Bool) (absPath : String → String)
    (label : String) (value : Option String) : Except String Endpoint :=
  match value with
  | none => .ok .unconfigured
  | some v =>
    match urlMappings.lookup v with
    | some base => .ok (.remote base)
    | none =>
      if http_scheme_check v then .ok (.remote v)
      else if pathExists (absPath v) then .ok (.localPath (absPath v))
      else .error ("Cannot find preference file " ++ label ++ ": " ++ v)

/-- `p` is a leading substring of `s`. -/
def str_starts_with (p s : String) : Bool :=
  p.toList.isPrefixOf s.toList

/-- Modelled from the spec (section 4.1 Source Endpoint Resolver): a
value that is a known alias or *begins with* an HTTP(S) scheme is
remote; an existing path is local; anything else is a configuration
error. -/
def spec_classify_url (urlMappings : List (String × String))
    (pathExists : String → Bool) (label : String) (value : Option String) :
    Except String Endpoint :=
  match value with
  | none => .ok .unconfigured
  | some v =>
    match urlMappings.lookup v with
    | some base => .ok (.remote base)
    | none =>
      if str_starts_with "http://" v || str_starts_with "https://" v then .ok (.remote v)
      else if pathExists v then .ok (.localPath v)
      else .error ("Cannot find preference file " ++ label ++ ": " ++ v)

/-- C3: a value beginning with `https://` that is neither an alias nor
an existing path should be classified as remote.  FALSE in the code:
`("http://" or "https://")` evaluates to `"http://"`, the substring test
fails on an `https://` URL, and construction raises the configuration
error — where the spec-modelled classifier returns remote. -/
theorem c3_https_rejected_not_remote :
    classify_url [] (fun _ => false) (fun s => s) "station_url"
        (some "https://example.com/fdsnws")
      = Except.error "Cannot find preference file station_url: https://example.com/fdsnws"
    ∧ spec_classify_url [] (fun _ => false) "station_url"
        (some "https://example.com/fdsnws")
      = Except.ok (Endpoint.remote "https://example.com/fdsnws") := by
  exact ⟨rfl, rfl⟩

/-! ## Loop suppression in the pattern loop

concierge.py lines 392-401: `loopCounter` counts iterations of the
`sncl_patterns` loop, and the iteration is skipped (`continue`) when
`network is "*" and station is "*" and location is "*" and
loopCounter > 1`.  The tested values are the *override arguments* of the
`get_availability` call, not the components of the pattern list entry;
CPython identity on the interned literal `"*"` is modelled as string
equality. -/

structure GAArgs where
  network : Option String
  station : Option String
  location : Option String
deriving DecidableEq, Repr

/-- The skip condition of concierge.py line 400. -/
def skip_condition (args : GAArgs) (loopCounter : Nat) : Bool :=
  args.network == some "*" && args.station == some "*"
    && args.location == some "*" && decide (1 < loopCounter)

/-- Which loop-counter values (1-based, one per entry of
`sncl_patterns`) reach the body of the pattern loop instead of being
skipped by `continue`. -/
def eval_iters (args : GAArgs) : Nat → List String → List Nat
  | _, [] => []
  | lc, _ :: ps =>
    if skip_condition args (lc + 1) then eval_iters args (lc + 1) ps
    else (lc + 1) :: eval_iters args (lc + 1) ps

def evaluated_iterations (args : GAArgs) (snclPatterns : List String) : List Nat :=
  eval_iters args 0 snclPatterns

/-- C6 counterexample: the pattern `*.*.*.BHZ` repeated twice in the
pattern list, with the call's override arguments left at their `None`
defaults — the skip condition tests the *arguments*, not the pattern, so
the second iteration is evaluated, not skipped. -/
theorem c6_counterexample_second_iteration_runs :
    evaluated_iterations ⟨none, none, none⟩ ["*.*.*.BHZ", "*.*.*.BHZ"] = [1, 2] := by
  decide

/-- With all three override arguments equal to `"*"`, every iteration
with loop counter `≥ 2` is skipped. -/
theorem eval_iters_wild_eq_nil (ps : List String) :
    ∀ lc, 1 ≤ lc →
      eval_iters ⟨some "*", some "*", some "*"⟩ lc ps = [] := by
  induction ps with
  | nil => intro lc _; rfl
  | cons p ps ih =>
    intro lc hlc
    have hskip : skip_condition ⟨some "*", some "*", some "*"⟩ (lc + 1) = true := by
      simp [skip_condition]
      omega
    rw [eval_iters, if_pos hskip]
    exact ih (lc + 1) (by omega)

/-- If the three override arguments are not all `"*"`, no iteration is
ever skipped. -/
theorem eval_iters_no_wild (args : GAArgs)
    (h : ¬(args.network = some "*" ∧ args.station = some "*"
            ∧ args.location = some "*")) (ps : List String) :
    ∀ lc, eval_iters args lc ps = List.range' (lc + 1) ps.length := by
  induction ps with
  | nil => intro lc; rfl
  | cons p ps ih =>
    intro lc
    have hskip : skip_condition args (lc + 1) = false := by
      by_contra hc
      rw [Bool.not_eq_false] at hc
      simp only [skip_condition, Bool.and_eq_true, beq_iff_eq,
        decide_eq_true_eq] at hc
      exact h ⟨hc.1.1.1, hc.1.1.2, hc.1.2⟩
    rw [eval_iters, if_neg (by simp [hskip]), ih (lc + 1)]
    simp [List.range'_succ]

/-- A de-duplication pass drops everything whose key is already seen. -/
theorem drop_dups_seen_eq_nil (seen : List (String × String)) :
    ∀ l : List AvRow, (∀ r ∈ l, avKey r ∈ seen) → drop_dups_seen seen l = [] := by
  intro l
  induction l with
  | nil => intro _; rfl
  | cons r rs ih =>
    intro h
    rw [drop_dups_seen, if_pos (h r (List.mem_cons_self r rs))]
    exact ih fun r' hr' => h r' (List.mem_cons_of_mem r hr')

/-- Appending rows whose keys all occur earlier changes nothing. -/
theorem drop_dups_seen_append_absorb :
    ∀ (l1 : List AvRow) (seen : List (String × String)) (l2 : List AvRow),
      (∀ r ∈ l2, avKey r ∈ l1.map avKey ++ seen) →
      drop_dups_seen seen (l1 ++ l2) = drop_dups_seen seen l1 := by
  intro l1
  induction l1 with
  | nil =>
    intro seen l2 h
    simp only [List.nil_append, drop_dups_seen]
    exact drop_dups_seen_eq_nil seen l2 (by simpa using h)
  | cons r l1 ih =>
    intro seen l2 h
    by_cases hr : avKey r ∈ seen
    · rw [List.cons_append, drop_dups_seen, if_pos hr, drop_dups_seen, if_pos hr]
      refine ih seen l2 fun r' hr' => ?_
      have := h r' hr'
      simp only [List.map_cons, List.cons_append, List.mem_cons] at this
      rcases this with heq | hmem
      · exact List.mem_append_right _ (heq ▸ hr)
      · exact hmem
    · rw [List.cons_append, drop_dups_seen, if_neg hr, drop_dups_seen, if_neg hr]
      congr 1
      refine ih (avKey r :: seen) l2 fun r' hr' => ?_
      have := h r' hr'
      simp only [List.map_cons, List.cons_append, List.mem_cons,
        List.mem_append] at this ⊢
      tauto

/-- C6 amended: the loop suppression is keyed on the *override
arguments* of the call, not on the shape of the entries of the pattern
list.  When `network`, `station`, `location` are all the string `"*"`,
every iteration after the first is skipped; when they are not all `"*"`,
no iteration is skipped (a fully-wildcarded pattern occurring later in
the list is still evaluated); a repeated pattern's identical rows are
instead removed by de-duplication, contributing zero additional rows to
the merged catalog. -/
theorem c6_amended_suppression_keyed_on_args (patterns : List String)
    (args : GAArgs) (d : List AvRow) :
    (args = ⟨some "*", some "*", some "*"⟩ →
      evaluated_iterations args patterns = if patterns = [] then [] else [1])
    ∧ (¬(args.network = some "*" ∧ args.station = some "*"
          ∧ args.location = some "*") →
        evaluated_iterations args patterns = List.range' 1 patterns.length)
    ∧ mergeAndDedup [d, d] = mergeAndDedup [d] := by
  refine ⟨?_, ?_, ?_⟩
  · intro hargs
    subst hargs
    cases patterns with
    | nil => rfl
    | cons p ps =>
      simp only [evaluated_iterations, eval_iters]
      rw [if_neg (by simp [skip_condition])]
      rw [eval_iters_wild_eq_nil ps 1 (by omega)]
      simp
  · intro h
    exact eval_iters_no_wild args h patterns 0
  · show drop_duplicates_sncl_start ([d, d]).flatten
        = drop_duplicates_sncl_start ([d]).flatten
    have h2 : ([d, d]).flatten = d ++ d := by simp
    have h1 : ([d]).flatten = d ++ ([] : List AvRow) := by simp
    rw [drop_duplicates_sncl_start, drop_duplicates_sncl_start, h2, h1]
    rw [drop_dups_seen_append_absorb d [] d
      (fun r hr => by simpa using List.mem_map_of_mem avKey hr)]
    rw [drop_dups_seen_append_absorb d [] [] (by simp)]

/-- Witness for the amended C6 at concrete inputs. -/
theorem c6_amended_suppression_witness :
    evaluated_iterations ⟨some "*", some "*", some "*"⟩
        ["*.*.*.BHZ", "*.*.*.BHZ"] = [1]
    ∧ evaluated_iterations ⟨none, none, none⟩ ["*.*.*.BHZ", "*.*.*.BHZ"]
        = List.range' 1 2 := by
  constructor
  · have h := (c6_amended_suppression_keyed_on_args
      ["*.*.*.BHZ", "*.*.*.BHZ"] ⟨some "*", some "*", some "*"⟩ []).1 rfl
    simpa using h
  · exact (c6_amended_suppression_keyed_on_args
      ["*.*.*.BHZ", "*.*.*.BHZ"] ⟨none, none, none⟩ []).2.1 (by simp)

/-! ## Event catalog reader (get_event, local branch)

concierge.py lines 869-943.  The parsed local QuakeML catalog becomes a
list of `EventRec` (times and magnitudes as rationals; `depth` is
already converted to kilometers at parse time, line 896).  Each filter
is applied only when its argument is truthy (`if minmag:` etc.); the
magnitude-type filter uses `str.match`, i.e. a regex match anchored at
the *start* of the string (modelled with the token machine, where a `.`
in the supplied magtype is the any-character regex).  The surviving
frame is re-indexed `np.arange(1, len+1)` and, when empty, the function
returns `None` (line 941). -/

structure EventRec where
  eventId : String
  time : ℚ
  magnitude : ℚ
  magType : String
  depth : ℚ
deriving DecidableEq, Repr

/-- The rational 5.5, given in lowest terms so that the kernel can
evaluate comparisons on it. -/
def mag55 : ℚ := ⟨11, 2, by decide, by decide⟩

/-- The rational 6.4 in lowest terms. -/
def mag64 : ℚ := ⟨32, 5, by decide, by decide⟩

/-- Python truthiness of an optional number. -/
def truthy_num (x : Option ℚ) : Bool :=
  match x with
  | none => false
  | some v => decide (v ≠ 0)

/-- Python truthiness of an optional string. -/
def truthy_str (x : Option String) : Bool :=
  match x with
  | none => false
  | some s => decide (s ≠ "")

/-- Raw-regex tokens of a string used directly as a Python pattern
(line 914 `str.match(magtype)`): an unescaped `.` is the any-character
regex; other characters occurring in magnitude types are literals. -/
def raw_dot_tokens (s : String) : List Tok :=
  s.toList.map fun c => if c = '.' then .any else .lit c

/-- `events['magType'].str.match(magtype)`: anchored at the start, not
required to consume the whole string. -/
def magtype_match (mt : String) (v : String) : Bool :=
  match_here (raw_dot_tokens mt) v.toList

/-- concierge.py lines 905-918: the filter cascade over the parsed local
event catalog. -/
def apply_event_filters (st et : ℚ) (minmag maxmag : Option ℚ)
    (magtype : Option String) (mindepth maxdepth : Option ℚ)
    (events : List EventRec) : List EventRec :=
  let e1 := events.filter fun e => decide (st ≤ e.time)
  let e2 := e1.filter fun e => decide (e.time ≤ et)
  let e3 := if truthy_num minmag then
      e2.filter fun e => decide (minmag.getD 0 ≤ e.magnitude) else e2
  let e4 := if truthy_num maxmag then
      e3.filter fun e => decide (e.magnitude ≤ maxmag.getD 0) else e3
  let e5 := if truthy_str magtype then
      e4.filter fun e => magtype_match (magtype.getD "") e.magType else e4
  let e6 := if truthy_num mindepth then
      e5.filter fun e => decide (mindepth.getD 0 ≤ e.depth) else e5
  let e7 := if truthy_num maxdepth then
      e6.filter fun e => decide (e.depth ≤ maxdepth.getD 0) else e6
  e7

/-- concierge.py lines 905-943 (local branch): filter, re-index from 1
(`events.index = np.arange(1, len(events)+1)`, line 920), and return
`None` when the frame is empty (lines 940-941). -/
def get_event_local (st et : ℚ) (minmag maxmag : Option ℚ)
    (magtype : Option String) (mindepth maxdepth : Option ℚ)
    (events : List EventRec) : Option (List (Nat × EventRec)) :=
  let filtered := apply_event_filters st et minmag maxmag magtype mindepth maxdepth events
  if filtered.length = 0 then none
  else some (filtered.enumFrom 1)

/-- C7 counterexample: a local catalog whose only event has magnitude
5.5, filtered with minmag = 6 — zero events survive and `get_event`
returns `None` (line 941 `return None`), not an explicit empty
collection. -/
theorem c7_counterexample_returns_none :
    get_event_local 0 10 (some 6) none none none none
        [⟨"e1", 5, mag55, "MW", 10⟩] = none := by
  rfl

/-- C7 amended: a zero-event result after filtering yields `None` (a
null value, per the `return None` with its `TODO: raise an exception`
comment), not an empty collection; a nonzero result is the filtered
catalog indexed 1..n; on the catalog with magnitudes 5.5, 6.0, 6.4 and
minmag = 6, exactly the 6.0 and 6.4 events survive, indexed 1 and 2. -/
theorem c7_amended_none_or_one_indexed (st et : ℚ) (minmag maxmag : Option ℚ)
    (magtype : Option String) (mindepth maxdepth : Option ℚ)
    (events : List EventRec) :
    (get_event_local st et minmag maxmag magtype mindepth maxdepth events = none
      ↔ apply_event_filters st et minmag maxmag magtype mindepth maxdepth events = [])
    ∧ (∀ l, get_event_local st et minmag maxmag magtype mindepth maxdepth events
          = some l →
        l = (apply_event_filters st et minmag maxmag magtype mindepth maxdepth
              events).enumFrom 1)
    ∧ get_event_local 0 10 (some 6) none none none none
        [⟨"a", 5, mag55, "MW", 10⟩, ⟨"b", 5, 6, "MW", 10⟩,
         ⟨"c", 5, mag64, "MW", 10⟩]
      = some [(1, ⟨"b", 5, 6, "MW", 10⟩), (2, ⟨"c", 5, mag64, "MW", 10⟩)] := by
  refine ⟨?_, ?_, ?_⟩
  · rw [get_event_local]
    by_cases h : (apply_event_filters st et minmag maxmag magtype mindepth
        maxdepth events).length = 0
    · simp [h, List.length_eq_zero.mp h]
    · simp only [h, if_false]
      constructor
      · intro hc; exact absurd hc (by simp)
      · intro hc; exact absurd (congrArg List.length hc) (by simpa using h)
  · intro l hl
    rw [get_event_local] at hl
    by_cases h : (apply_event_filters st et minmag maxmag magtype mindepth
        maxdepth events).length = 0
    · simp [h] at hl
    · simp only [h, if_false, Option.some_inj] at hl
      exact hl.symm
  · rfl

/-- Witness for the amended C7 at the concrete three-event scenario. -/
theorem c7_amended_witness :
    [(1, (⟨"b", 5, 6, "MW", 10⟩ : EventRec)),
     (2, (⟨"c", 5, mag64, "MW", 10⟩ : EventRec))]
      = (apply_event_filters 0 10 (some 6) none none none none
          [⟨"a", 5, mag55, "MW", 10⟩, ⟨"b", 5, 6, "MW", 10⟩,
           ⟨"c", 5, mag64, "MW", 10⟩]).enumFrom 1 :=
  (c7_amended_none_or_one_indexed 0 10 (some 6) none none none none
      [⟨"a", 5, mag55, "MW", 10⟩, ⟨"b", 5, 6, "MW", 10⟩,
       ⟨"c", 5, mag64, "MW", 10⟩]).2.1 _ rfl

/-! ## Multi-day local waveform assembly (get_dataselect, nday > 1)

concierge.py lines 686-764.  The window is partitioned into calendar
days; for each day the code builds the filename pattern
`dataselect_url/NET.STA.LOC.CHA.YYYY.DDD*`, globs it, raises
`Exception("No files found matching '<pattern>'")` when nothing matches
(lines 706-708), and otherwise appends the raw bytes of the *first*
matching file to a temp buffer (lines 711-720).  Per-day pattern strings
are taken as the input list (the `YYYY.DDD` rendering of each day's
start); the filesystem is the `glob` function, file bytes the `content`
function, and the subsequent `obspy.read` + `slice(_starttime,
_endtime)` step the `sliceToWindow` function. -/

/-- In-order concatenation of a list of strings. -/
def concat_all : List String → String
  | [] => ""
  | s :: ss => s ++ concat_all ss

/-- The day loop of lines 691-720: produce the concatenated buffer, or
the exception raised at the first day with no matching file. -/
def read_day_files (glob : String → List String) (content : String → String) :
    List String → Except String String
  | [] => .ok ""
  | fp :: fps =>
    match glob fp with
    | [] => .error ("No files found matching " ++ fp)
    | f :: _ =>
      (read_day_files glob content fps).map fun rest => content f ++ rest

/-- Lines 686-764: multi-day branch result — the sliced parse of the
concatenated buffer, or the propagated missing-file error. -/
def get_dataselect_multiday (glob : String → List String)
    (content sliceToWindow : String → String) (dayPatterns : List String) :
    Except String String :=
  (read_day_files glob content dayPatterns).map sliceToWindow

/-- C4: with every day's file present the result is one stream — the
window-slice of the in-order concatenation of each day's (first
matching) file; if any day's file is absent, including a middle day, the
call fails with the retrieval error naming that day's file pattern (the
first missing one), and no partial result is ever produced. -/
theorem c4_multiday_all_or_error (glob : String → List String)
    (content sliceToWindow : String → String) (dayPatterns : List String) :
    ((∀ fp ∈ dayPatterns, glob fp ≠ []) →
      get_dataselect_multiday glob content sliceToWindow dayPatterns
        = .ok (sliceToWindow
            (concat_all (dayPatterns.map fun fp => content ((glob fp).headD "")))))
    ∧ (∀ pre fp post, dayPatterns = pre ++ fp :: post →
        (∀ q ∈ pre, glob q ≠ []) → glob fp = [] →
        get_dataselect_multiday glob content sliceToWindow dayPatterns
          = .error ("No files found matching " ++ fp))
    ∧ (¬(∀ fp ∈ dayPatterns, glob fp ≠ []) →
        ∀ s, get_dataselect_multiday glob content sliceToWindow dayPatterns
          ≠ .ok s) := by
  refine ⟨?_, ?_, ?_⟩
  · intro hall
    have : ∀ l, (∀ fp ∈ l, glob fp ≠ []) →
        read_day_files glob content l
          = .ok (concat_all (l.map fun fp => content ((glob fp).headD ""))) := by
      intro l
      induction l with
      | nil => intro _; rfl
      | cons fp fps ih =>
        intro h
        have hfp := h fp (List.mem_cons_self fp fps)
        rw [read_day_files]
        cases hg : glob fp with
        | nil => exact absurd hg hfp
        | cons f fs =>
          rw [ih fun q hq => h q (List.mem_cons_of_mem fp hq)]
          simp [Except.map, concat_all, hg]
    rw [get_dataselect_multiday, this dayPatterns hall]
    rfl
  · intro pre fp post hdecomp hpre hfp
    subst hdecomp
    rw [get_dataselect_multiday]
    have : read_day_files glob content (pre ++ fp :: post)
        = .error ("No files found matching " ++ fp) := by
      induction pre with
      | nil => simp [read_day_files, hfp]
      | cons q qs ih =>
        have hq := hpre q (List.mem_cons_self q qs)
        rw [List.cons_append, read_day_files]
        cases hg : glob q with
        | nil => exact absurd hg hq
        | cons f fs =>
          rw [ih fun q' hq' => hpre q' (List.mem_cons_of_mem q hq')]
          rfl
    rw [this]
    rfl
  · intro hmiss s hok
    have : ∀ l, (∃ fp ∈ l, glob fp = []) →
        ∀ t, read_day_files glob content l ≠ .ok t := by
      intro l
      induction l with
      | nil => rintro ⟨fp, hfp, _⟩; exact absurd hfp (List.not_mem_nil fp)
      | cons q qs ih =>
        rintro ⟨fp, hfp, hg⟩ t hok'
        rw [read_day_files] at hok'
        rcases List.mem_cons.mp hfp with heq | hmem
        · subst heq
          rw [hg] at hok'
          exact Except.noConfusion hok'
        · cases hgq : glob q with
          | nil => rw [hgq] at hok'; exact Except.noConfusion hok'
          | cons f fs =>
            rw [hgq] at hok'
            cases hrest : read_day_files glob content qs with
            | error e => rw [hrest] at hok'; exact Except.noConfusion hok'
            | ok t' => exact ih ⟨fp, hmem, hg⟩ t' hrest
    push_neg at hmiss
    obtain ⟨fp, hfp, hg⟩ := hmiss
    rw [get_dataselect_multiday] at hok
    cases hrest : read_day_files glob content dayPatterns with
    | error e => rw [hrest] at hok; exact Except.noConfusion hok
    | ok t =>
      exact this dayPatterns ⟨fp, hfp, by simpa using hg⟩ t hrest

/-- Witness for C4: three days `2013.001`-`2013.003`; with all three
files present the result is the sliced concatenation, and with the
middle day's file removed the result is the error naming its pattern. -/
theorem c4_multiday_witness :
    get_dataselect_multiday
        (fun fp => if fp = "d2" then [] else [fp ++ ".M"])
        (fun f => f ++ ";") (fun b => "[" ++ b ++ "]") ["d1", "d2", "d3"]
      = .error "No files found matching d2"
    ∧ get_dataselect_multiday (fun fp => [fp ++ ".M"])
        (fun f => f ++ ";") (fun b => "[" ++ b ++ "]") ["d1", "d2", "d3"]
      = .ok "[d1.M;d2.M;d3.M;]" := by
  constructor
  · exact (c4_multiday_all_or_error
        (fun fp => if fp = "d2" then [] else [fp ++ ".M"])
        (fun f => f ++ ";") (fun b => "[" ++ b ++ "]") ["d1", "d2", "d3"]).2.1
      ["d1"] "d2" ["d3"] rfl (by intro q hq; simp at hq; simp [hq]) (by simp)
  · have h := (c4_multiday_all_or_error (fun fp => [fp ++ ".M"])
        (fun f => f ++ ";") (fun b => "[" ++ b ++ "]") ["d1", "d2", "d3"]).1
      (by intro fp _; simp)
    simpa using h

/-! ## Geographic radius filter (get_availability, lines 521-547)

When `maxradius` or `minradius` is supplied, each row's coordinates pass
through `if (lat and lon)` — Python numeric truthiness, so `None` *and*
the value `0` both fail — then through an `isnan` check, and then the
great-circle distance (converted to degrees) decides retention:
`|dist| <= maxradius` when only `maxradius` is given, `|dist| >=
minradius` when only `minradius` is given, and the conjunction when
both are.  Rows that fail a check never set the `KEEP` mark and are
dropped.  Coordinates are `Option ℚ` (`none` for missing); the external
`gps2dist_azimuth` + `kilometer2degrees` pipeline is the `distDeg`
function parameter. -/

structure GeoRow where
  lat : Option ℚ
  lon : Option ℚ
  payload : Nat
deriving DecidableEq, Repr

/-- The three `elif` branches of lines 533-541 (distances are compared
through `abs`). -/
def geo_keep (minr maxr : Option ℚ) (dist : ℚ) : Bool :=
  match minr, maxr with
  | none, some mx => decide (|dist| ≤ mx)
  | some mn, none => decide (mn ≤ |dist|)
  | some mn, some mx => decide (|dist| ≤ mx) && decide (mn ≤ |dist|)
  | none, none => false

/-- Per-row decision, lines 526-545: the `if (lat and lon)` truthiness
gate (zero or missing coordinates never reach the distance branches)
followed by `geo_keep`. -/
def geo_row_keep (minr maxr : Option ℚ) (dist : ℚ)
    (lat lon : Option ℚ) : Bool :=
  match lat, lon with
  | some a, some b =>
    if a = 0 ∨ b = 0 then false else geo_keep minr maxr dist
  | _, _ => false

/-- Lines 523-547: the distance subsetting is applied only when a radius
bound was supplied; otherwise every row is kept. -/
def geo_filter (minr maxr : Option ℚ) (distDeg : GeoRow → ℚ)
    (rows : List GeoRow) : List GeoRow :=
  if minr = none ∧ maxr = none then rows
  else rows.filter fun r => geo_row_keep minr maxr (distDeg r) r.lat r.lon

/-- C9: for a row with finite nonzero coordinates under a supplied
radius filter: retention is exactly membership in `[minradius,
maxradius]` with the unspecified side unconstrained; a row at distance 0
is retained iff `minradius` is unset or ≤ 0 (when `maxradius`, if set,
is nonnegative); a row at distance exactly `maxradius` is retained
(inclusive bound, provided `minradius`, if set, is also satisfied). -/
theorem c9_geo_inclusive_bounds (minr maxr : Option ℚ)
    (distDeg : GeoRow → ℚ) (rows : List GeoRow) (r : GeoRow) (a b : ℚ)
    (hsup : ¬(minr = none ∧ maxr = none))
    (hlat : r.lat = some a) (hlon : r.lon = some b)
    (ha : a ≠ 0) (hb : b ≠ 0) (hd : 0 ≤ distDeg r) :
    (r ∈ geo_filter minr maxr distDeg rows
      ↔ r ∈ rows ∧ (∀ mn, minr = some mn → mn ≤ distDeg r)
          ∧ (∀ mx, maxr = some mx → distDeg r ≤ mx))
    ∧ (distDeg r = 0 → (∀ mx, maxr = some mx → 0 ≤ mx) →
        (r ∈ geo_filter minr maxr distDeg rows
          ↔ r ∈ rows ∧ (minr = none ∨ ∃ mn, minr = some mn ∧ mn ≤ 0)))
    ∧ (maxr = some (distDeg r) → (∀ mn, minr = some mn → mn ≤ distDeg r) →
        r ∈ rows → r ∈ geo_filter minr maxr distDeg rows) := by
  have habs : |distDeg r| = distDeg r := abs_of_nonneg hd
  have hkeep : geo_row_keep minr maxr (distDeg r) r.lat r.lon
      = geo_keep minr maxr (distDeg r) := by
    rw [hlat, hlon, geo_row_keep]
    simp [ha, hb]
  have hmain : r ∈ geo_filter minr maxr distDeg rows
      ↔ r ∈ rows ∧ (∀ mn, minr = some mn → mn ≤ distDeg r)
          ∧ (∀ mx, maxr = some mx → distDeg r ≤ mx) := by
    rw [geo_filter, if_neg hsup, List.mem_filter, hkeep]
    cases minr with
    | none =>
      cases maxr with
      | none => exact absurd ⟨rfl, rfl⟩ hsup
      | some mx => simp [geo_keep, habs]
    | some mn =>
      cases maxr with
      | none => simp [geo_keep, habs]
      | some mx => simp [geo_keep, habs, and_comm]
  refine ⟨hmain, ?_, ?_⟩
  · intro h0 hmx
    rw [hmain, h0]
    constructor
    · rintro ⟨hr, hmn, _⟩
      refine ⟨hr, ?_⟩
      cases minr with
      | none => exact Or.inl rfl
      | some mn => exact Or.inr ⟨mn, rfl, hmn mn rfl⟩
    · rintro ⟨hr, hc⟩
      refine ⟨hr, ?_, ?_⟩
      · intro mn hmn
        rcases hc with hc | ⟨mn', hmn', hle⟩
        · rw [hc] at hmn
          exact Option.noConfusion hmn
        · rw [hmn'] at hmn
          exact (Option.some.inj hmn) ▸ hle
      · intro mx hmx'
        exact hmx mx hmx'
  · intro hmxeq hmn hr
    rw [hmain]
    refine ⟨hr, hmn, ?_⟩
    intro mx h
    rw [hmxeq] at h
    exact le_of_eq (Option.some.inj h)

/-- Witness for C9 at concrete inputs: bounds [1, 3], distance 3
(exactly `maxradius`), nonzero coordinates. -/
theorem c9_geo_inclusive_bounds_witness :
    (⟨some 5, some 7, 0⟩ : GeoRow)
      ∈ geo_filter (some 1) (some 3) (fun _ => 3) [⟨some 5, some 7, 0⟩] := by
  have h := (c9_geo_inclusive_bounds (some 1) (some 3) (fun _ => 3)
      [⟨some 5, some 7, 0⟩] ⟨some 5, some 7, 0⟩ 5 7
      (by simp) rfl rfl (by decide) (by decide) (by decide)).2.2
  exact h rfl (by intro mn hmn; cases Option.some.inj hmn; decide)
    (List.mem_singleton.mpr rfl)

/-- C10 (implicit behavior): under a supplied radius filter, any row
whose latitude or longitude is exactly 0 or missing is dropped by the
numeric-truthiness gate `if (lat and lon)`, regardless of its actual
distance — a station on the equator or prime meridian never survives a
radius-filtered availability query. -/
theorem c10_zero_coordinate_always_dropped (minr maxr : Option ℚ)
    (distDeg : GeoRow → ℚ) (rows : List GeoRow) (r : GeoRow)
    (hsup : ¬(minr = none ∧ maxr = none))
    (hzero : r.lat = some 0 ∨ r.lon = some 0 ∨ r.lat = none ∨ r.lon = none) :
    r ∉ geo_filter minr maxr distDeg rows := by
  intro hmem
  rw [geo_filter, if_neg hsup, List.mem_filter] at hmem
  have hkeep := hmem.2
  have hfalse : geo_row_keep minr maxr (distDeg r) r.lat r.lon = false := by
    rcases hzero with h | h | h | h
    · rw [h]
      cases r.lon with
      | none => rfl
      | some b => simp [geo_row_keep]
    · rw [h]
      cases r.lat with
      | none => rfl
      | some a => simp [geo_row_keep]
    · rw [h]
      cases r.lon with
      | none => rfl
      | some b => rfl
    · rw [h]
      cases r.lat with
      | none => rfl
      | some a => rfl
  rw [hfalse] at hkeep
  exact Bool.noConfusion hkeep

/-- Witness for C10: a station at latitude 0 (the equator) with distance
2, inside the supplied bounds [1, 3], is still dropped. -/
theorem c10_zero_coordinate_witness :
    (⟨some 0, some 7, 0⟩ : GeoRow)
      ∉ geo_filter (some 1) (some 3) (fun _ => 2) [⟨some 0, some 7, 0⟩] :=
  c10_zero_coordinate_always_dropped (some 1) (some 3) (fun _ => 2)
    [⟨some 0, some 7, 0⟩] ⟨some 0, some 7, 0⟩ (by simp) (Or.inl rfl)

/-! ## Local availability catalog build and cache (lines 272-388, 440-444)

With a local station source (`station_client is None`), the
StationXML parse plus waveform-directory scan runs only under the guard
`if self.availability is None:` (line 277); the resulting dataframe is
stored in `self.availability` (line 387, once per pattern iteration, so
only when `sncl_patterns` is non-empty).  Later calls take the pattern
loop's `df = self.availability` (line 442) without re-reading anything.
The inventory walk (lines 314-326) keeps channel epochs overlapping the
requested window (`c.start_date < _endtime and c.end_date >
_starttime`); the scan (lines 364-384) adds, per pattern, a
metadata-free row for each matching local file whose SNCL id is not
already `str.contains`-matched in the dataframe (line 377 — the raw id
is used as a regex, so its dots are any-character matchers). -/

structure ChanEpoch where
  network : String
  station : String
  location : String
  channel : String
  startDate : ℚ
  endDate : ℚ
  startStr : String
  payload : Nat
deriving DecidableEq, Repr

def chan_sncl_id (c : ChanEpoch) : String :=
  c.network ++ "." ++ c.station ++ "." ++ c.location ++ "." ++ c.channel

/-- Line 319-326: the dataframe row built from one inventory channel. -/
def inv_row (c : ChanEpoch) : AvRow :=
  ⟨chan_sncl_id c, c.startStr, c.payload⟩

/-- Line 375-376: `_file.split("/")[-1]`, then the first four
dot-components re-joined with dots. -/
def basename_of (p : String) : String :=
  String.mk ((split_char '/' p.toList).getLastD p.toList)

def file_sncl_id (fname : String) : String :=
  let parts := split_dot fname.toList
  String.mk (parts.getD 0 []) ++ "." ++ String.mk (parts.getD 1 [])
    ++ "." ++ String.mk (parts.getD 2 []) ++ "." ++ String.mk (parts.getD 3 [])

/-- Lines 373-384: add a metadata-free row per matching file unless the
dataframe already `str.contains`-matches the file's SNCL id (the id is
used as a raw regex, so `.` is the any-character matcher). -/
def add_matching_files (df : List AvRow) (files : List String) : List AvRow :=
  files.foldl (fun acc f =>
    let sid := file_sncl_id (basename_of f)
    if acc.any fun r => re_search (raw_dot_tokens sid) r.snclId.toList then acc
    else acc ++ [⟨sid, "None", 0⟩]) df

/-- Line 364-365: the glob pattern
`dataselect_url/NET.STA.LOC.CHA.YYYY.DDD*` for one preference-file
pattern, `none` when the pattern does not split into 4 components
(line 336-340 raises on that). -/
def day_pattern_for (url pat day : String) : Option String :=
  match split_dot pat.toList with
  | [n, s, l, c] =>
    some (url ++ "/" ++ String.mk n ++ "." ++ String.mk s ++ "." ++ String.mk l
      ++ "." ++ String.mk c ++ "." ++ day ++ "*")
  | _ => none

structure BuildEnv where
  inventory : List ChanEpoch
  reqStart : ℚ
  reqEnd : ℚ
  startDayStr : String
  dataselectUrl : String
  globFiles : String → List String
  snclPatterns : List String

/-- Lines 304-384: inventory rows with epoch overlapping the window,
then the per-pattern scan of local waveform files; a malformed pattern
raises `ValueError`. -/
def build_df (env : BuildEnv) : Except String (List AvRow) :=
  let init := (env.inventory.filter fun c =>
    decide (c.startDate < env.reqEnd) && decide (env.reqStart < c.endDate)).map inv_row
  env.snclPatterns.foldl (fun acc pat =>
    acc.bind fun df =>
      match day_pattern_for env.dataselectUrl pat env.startDayStr with
      | none => .error ("Could not parse sncl_pattern " ++ pat)
      | some fp =>
        match env.globFiles fp with
        | [] => .ok df
        | files => .ok (add_matching_files df files)) (.ok init)

/-- Lines 272-388: the build-and-store step of `get_availability` under
a local station source.  Input: the current `self.availability`;
output: the new `self.availability` plus a flag recording whether the
StationXML parse / directory scan ran.  The store on line 387 sits
inside the pattern loop, so with an empty `sncl_patterns` nothing is
stored. -/
def get_availability_local_build (availability : Option (List AvRow))
    (env : BuildEnv) : Except String (Option (List AvRow) × Bool) :=
  match availability with
  | some df => .ok (some df, false)
  | none =>
    (build_df env).map fun df =>
      (if env.snclPatterns.isEmpty then none else some df, true)

/-- C8: once the first call has built and stored the catalog, a second
call performs no re-parse and no re-scan and leaves the stored catalog
unchanged, returning the identical cached dataframe. -/
theorem c8_local_catalog_cached (env : BuildEnv) (df : List AvRow)
    (h1 : env.snclPatterns ≠ []) (h2 : build_df env = .ok df) :
    get_availability_local_build none env = .ok (some df, true)
    ∧ get_availability_local_build (some df) env = .ok (some df, false) := by
  constructor
  · rw [get_availability_local_build, h2]
    have : env.snclPatterns.isEmpty = false := by
      simpa [List.isEmpty_iff] using h1
    simp [Except.map, this]
  · rfl

/-- Witness for C8 at a concrete environment: one pattern, empty
inventory, no local files — the build succeeds with an empty catalog,
which the second call then reuses without rebuilding. -/
theorem c8_local_catalog_cached_witness :
    get_availability_local_build none
        ⟨[], 0, 1, "2013.001", "/data", fun _ => [], ["IU.ANMO.00.BHZ"]⟩
      = .ok (some [], true)
    ∧ get_availability_local_build (some [])
        ⟨[], 0, 1, "2013.001", "/data", fun _ => [], ["IU.ANMO.00.BHZ"]⟩
      = .ok (some [], false) :=
  c8_local_catalog_cached
    ⟨[], 0, 1, "2013.001", "/data", fun _ => [], ["IU.ANMO.00.BHZ"]⟩ []
    (by simp) rfl

end Ispaq
